import Mathlib

/-!
Verification development for the usage-aggregation core of the
Windows screen-time tracker (src/screen_time_tracker.py).

The Python class ScreenTimeTracker is shallowly embedded: its mutable
fields become a record (TrackerState), each method becomes a function
from states to states (and results), and its external readings
(time.time(), the foreground-window lookup, the local date string)
become explicit arguments.  Python dicts and defaultdicts are modelled
as insertion-ordered association lists, because both insertion order
(dict iteration order) and the defaultdict insert-on-read behaviour
are observable in this program.  Seconds are modelled as rationals.
-/

namespace ScreenTime

/-- An application identifier: the process executable name, an opaque string. -/
abbrev AppId := String

/-- A calendar date rendered as a local YYYY-MM-DD string. -/
abbrev DateStr := String

/-- A Python dict with string keys, in insertion order. -/
abbrev Dict (α : Type) := List (String × α)

/-- Plain dict read: the value stored at key k, if any. -/
def dictFind (d : Dict α) (k : String) : Option α :=
  (List.find? (fun e => e.1 = k) d).map Prod.snd

/-- Reading a defaultdict(int) at key k in a theorem statement: the stored
value, or 0 when the key is absent. -/
def usageOf (d : Dict ℚ) (k : String) : ℚ :=
  (dictFind d k).getD 0

/-- Sum of the values of a dict, as in sum(d.values()). -/
def sumValues (m : Dict ℚ) : ℚ :=
  (m.map Prod.snd).sum

/-- The compound statement d[k] += v on a defaultdict(int): if k is present
its value grows in place (position preserved), otherwise the entry (k, v)
is appended at the end, since the default int() is 0. -/
def bumpEntry (k : String) (v : ℚ) : Dict ℚ → Dict ℚ
  | [] => [(k, v)]
  | e :: rest => if e.1 = k then (k, e.2 + v) :: rest else e :: bumpEntry k v rest

/-- Plain dict assignment d[k] = v: overwrite in place when present,
append at the end when absent. -/
def setEntry (k : String) (v : α) : Dict α → Dict α
  | [] => [(k, v)]
  | e :: rest => if e.1 = k then (k, v) :: rest else e :: setEntry k v rest

/-- The statement daily_usage[date][app] += v on the nested
defaultdict(lambda: defaultdict(int)): reading [date] creates an empty inner
dict when the date is absent (appended at the end), and the inner bump then
follows defaultdict(int) semantics. -/
def bumpDaily (date : DateStr) (a : AppId) (v : ℚ) :
    Dict (Dict ℚ) → Dict (Dict ℚ)
  | [] => [(date, bumpEntry a v [])]
  | e :: rest =>
    if e.1 = date then (e.1, bumpEntry a v e.2) :: rest
    else e :: bumpDaily date a v rest

/-- The mutable fields of ScreenTimeTracker relevant to the aggregation core:
app_usage (lifetime seconds per app), daily_usage (seconds per app per date),
the is_tracking flag and last_check_time.  The current_window field is never
read by the core and is omitted. -/
structure TrackerState where
  app_usage : Dict ℚ
  daily_usage : Dict (Dict ℚ)
  is_tracking : Bool
  last_check_time : ℚ
  deriving DecidableEq

/-- The state built by the constructor before load_data runs: both mappings
empty, tracking off, last_check_time set to the current clock reading. -/
def initState (now : ℚ) : TrackerState :=
  { app_usage := [], daily_usage := [], is_tracking := false,
    last_check_time := now }

/-- Embedding of ScreenTimeTracker.start_tracking. -/
def start_tracking (st : TrackerState) (now : ℚ) : TrackerState :=
  { st with is_tracking := true, last_check_time := now }

/-- Embedding of ScreenTimeTracker.update_usage.  The external readings are
passed as arguments: current_time is time.time(), app_name is the
get_active_window_info result (None on lookup failure), today is
datetime.now().strftime of the local date.  The source guard is
if app_name and time_diff < 5, so Python truthiness makes both None and the
empty string skip the attribution; last_check_time is updated
unconditionally once tracking is on. -/
def update_usage (st : TrackerState) (current_time : ℚ)
    (app_name : Option AppId) (today : DateStr) : TrackerState :=
  if st.is_tracking then
    let time_diff := current_time - st.last_check_time
    let st1 :=
      match app_name with
      | some a =>
        if a ≠ "" ∧ time_diff < 5 then
          { st with
            app_usage := bumpEntry a time_diff st.app_usage,
            daily_usage := bumpDaily today a time_diff st.daily_usage }
        else st
      | none => st
    { st1 with last_check_time := current_time }
  else st

/-- One external observation fed to update_usage: the clock reading, the
observed foreground app (none on failure) and the local date string. -/
structure Tick where
  now : ℚ
  app : Option AppId
  today : DateStr
  deriving DecidableEq

/-- A run of the sampling loop: update_usage applied once per tick, in order. -/
def run (st : TrackerState) : List Tick → TrackerState
  | [] => st
  | t :: rest => run (update_usage st t.now t.app t.today) rest

/-- Specification-side accounting: the sum of the elapsed values of exactly
those ticks the attribution policy accepts for app a, replaying the clock
reference the same way the loop does (the reference advances on every tick). -/
def acceptedSum (last : ℚ) (a : AppId) : List Tick → ℚ
  | [] => 0
  | t :: rest =>
    (if t.app = some a ∧ t.now - last < 5 then t.now - last else 0)
      + acceptedSum t.now a rest

/-- Insertion step of a stable descending sort on the seconds component:
the new element is placed before the first element whose seconds do not
exceed its own, so it precedes every tie coming later in the original list. -/
def insertDesc (x : String × ℚ) : List (String × ℚ) → List (String × ℚ)
  | [] => [x]
  | y :: ys => if y.2 ≤ x.2 then x :: y :: ys else y :: insertDesc x ys

/-- Stable sort by seconds descending, the semantics of Python
sorted(items, key seconds, reverse) on an insertion-ordered dict. -/
def sortDesc (l : List (String × ℚ)) : List (String × ℚ) :=
  l.foldr insertDesc []

/-- Embedding of ScreenTimeTracker.get_top_apps: sort the app_usage items by
seconds descending (stable, hence ties keep insertion order) and truncate.
The method only iterates the dict, so it reads the state without changing it. -/
def get_top_apps (st : TrackerState) (limit : ℕ) : List (AppId × ℚ) :=
  (sortDesc st.app_usage).take limit

/-- Embedding of ScreenTimeTracker.get_daily_total.  When date is None the
source substitutes today's date, passed here as todayStr.  The read
self.daily_usage[date] happens on a defaultdict, so a missing date inserts an
empty inner dict: the method returns the sum together with the resulting
state. -/
def get_daily_total (st : TrackerState) (date : Option DateStr)
    (todayStr : DateStr) : ℚ × TrackerState :=
  let d := date.getD todayStr
  match List.find? (fun e => e.1 = d) st.daily_usage with
  | some e => (sumValues e.2, st)
  | none => (0, { st with daily_usage := st.daily_usage ++ [(d, [])] })

/-- A parsed JSON value, restricted to numbers and string-keyed objects:
the only shapes save_data ever writes, and the shapes this development's
malformed-store analysis uses.  Other JSON shapes (strings, arrays,
booleans, null) are outside this model of the store; nothing here claims
anything about how the loader treats them. -/
inductive JVal where
  | num (q : ℚ)
  | obj (entries : List (String × JVal))

/-- Reading data.get(k, default) without the default: the field of a parsed
JSON object, if present. -/
def jLookup (entries : List (String × JVal)) (k : String) : Option JVal :=
  (List.find? (fun e => e.1 = k) entries).map Prod.snd

/-- The seconds value this ℚ-valued state model keeps for one stored entry.
Python's defaultdict(int, mapping) copies values of any type unchanged; a
numeric value is kept exactly, while a value that is itself an object (which
no saved store contains and no operation of this development ever reads) is
unrepresentable as a rational and is kept as the inert placeholder 0. -/
def entrySeconds : JVal → ℚ
  | .num q => q
  | .obj _ => 0

/-- The defaultdict(int, v) construction on a parsed value.  On an object
it succeeds with all entries, whatever their values, exactly as Python's
dict construction from a mapping does; on a number, which is not dict-like,
the construction raises, modelled as none. -/
def asFlatDict : JVal → Option (Dict ℚ)
  | .num _ => none
  | .obj entries => some (entries.map (fun e => (e.1, entrySeconds e.2)))

/-- The persisted file exactly as load_data can observe it: missing
(os.path.exists is false), present but rejected by json.load, or parsed
successfully to a value. -/
inductive StoreFile where
  | absent
  | garbled
  | parsed (j : JVal)

/-- The for-loop of load_data: daily_usage is rebuilt entry by entry with
self.daily_usage[date] = defaultdict(int, apps).  An entry whose value is
not dict-like (a number) makes the dict construction raise mid-loop; the
surrounding bare except swallows the exception, so the partially rebuilt
mapping stays in place. -/
def loadDaily (acc : Dict (Dict ℚ)) : List (String × JVal) → Dict (Dict ℚ)
  | [] => acc
  | (date, apps) :: rest =>
    match asFlatDict apps with
    | none => acc
    | some m => loadDaily (setEntry date m acc) rest

/-- Embedding of ScreenTimeTracker.load_data.  Assignments happen in source
order and every exception is swallowed by the bare except clause, so the
state keeps exactly the assignments that completed before any raise:
nothing on a missing or unparseable file, nothing when data is not an
object or its app_usage field is not dict-like (the raise precedes the
first assignment), but a replaced app_usage and an emptied or partially
rebuilt daily_usage when the failure comes later. -/
def load_data (st : TrackerState) (file : StoreFile) : TrackerState :=
  match file with
  | .absent => st
  | .garbled => st
  | .parsed j =>
    match j with
    | .num _ => st
    | .obj data =>
      match asFlatDict ((jLookup data "app_usage").getD (.obj [])) with
      | none => st
      | some au =>
        let st2 := { st with app_usage := au, daily_usage := [] }
        match (jLookup data "daily_usage").getD (.obj []) with
        | .num _ => st2
        | .obj dentries => { st2 with daily_usage := loadDaily [] dentries }

/-- Embedding of save_data: the JSON document written to the store, holding
both mappings in insertion order. -/
def save_data (st : TrackerState) : JVal :=
  .obj
    [("app_usage", .obj (st.app_usage.map (fun e => (e.1, JVal.num e.2)))),
     ("daily_usage",
       .obj (st.daily_usage.map
         (fun e => (e.1, JVal.obj (e.2.map (fun x => (x.1, JVal.num x.2)))))))]

/-- Embedding of stop_tracking: clear the flag, then save; the saved
document is returned alongside the new state. -/
def stop_tracking (st : TrackerState) : TrackerState × JVal :=
  ({ st with is_tracking := false },
   save_data { st with is_tracking := false })

/-! ### Lemmas about dict updates -/

theorem dictFind_nil {α : Type} (k : String) : dictFind ([] : Dict α) k = none := rfl

theorem dictFind_cons_self {α : Type} (e : String × α) (rest : Dict α)
    (k : String) (h : e.1 = k) : dictFind (e :: rest) k = some e.2 := by
  simp [dictFind, List.find?_cons_of_pos, h]

theorem dictFind_cons_ne {α : Type} (e : String × α) (rest : Dict α)
    (k : String) (h : ¬ e.1 = k) : dictFind (e :: rest) k = dictFind rest k := by
  simp only [dictFind]
  rw [List.find?_cons_of_neg]
  simp [h]

theorem usageOf_bumpEntry_self (k : String) (v : ℚ) (d : Dict ℚ) :
    usageOf (bumpEntry k v d) k = usageOf d k + v := by
  induction d with
  | nil => simp [bumpEntry, usageOf, dictFind_cons_self, dictFind_nil]
  | cons e rest ih =>
    by_cases h : e.1 = k
    · simp only [bumpEntry, if_pos h, usageOf]
      rw [dictFind_cons_self _ _ _ rfl, dictFind_cons_self _ _ _ h]
      simp [add_comm]
    · simp only [bumpEntry, if_neg h, usageOf] at ih ⊢
      rw [dictFind_cons_ne _ _ _ h, dictFind_cons_ne _ _ _ h]
      exact ih

theorem usageOf_bumpEntry_other (k k' : String) (v : ℚ) (d : Dict ℚ)
    (hne : k' ≠ k) :
    usageOf (bumpEntry k v d) k' = usageOf d k' := by
  induction d with
  | nil =>
    simp only [bumpEntry, usageOf]
    rw [dictFind_cons_ne _ _ _ (by simpa using Ne.symm hne), dictFind_nil]
  | cons e rest ih =>
    by_cases h : e.1 = k
    · simp only [bumpEntry, if_pos h, usageOf]
      rw [dictFind_cons_ne _ _ _ (by simpa using Ne.symm hne),
        dictFind_cons_ne _ _ _ (by simpa [h] using Ne.symm hne)]
    · simp only [bumpEntry, if_neg h, usageOf] at ih ⊢
      by_cases h2 : e.1 = k'
      · rw [dictFind_cons_self _ _ _ h2, dictFind_cons_self _ _ _ h2]
      · rw [dictFind_cons_ne _ _ _ h2, dictFind_cons_ne _ _ _ h2]
        exact ih

theorem usageOf_bumpEntry_le (k k' : String) (v : ℚ) (d : Dict ℚ)
    (hv : 0 ≤ v) :
    usageOf d k' ≤ usageOf (bumpEntry k v d) k' := by
  by_cases h : k' = k
  · subst h
    rw [usageOf_bumpEntry_self]
    linarith
  · rw [usageOf_bumpEntry_other k k' v d h]

/-! ### Basic facts about update_usage -/

theorem update_usage_is_tracking (st : TrackerState) (now : ℚ)
    (app : Option AppId) (today : DateStr) :
    (update_usage st now app today).is_tracking = st.is_tracking := by
  unfold update_usage
  by_cases ht : st.is_tracking
  · cases app with
    | none => simp [ht]
    | some a =>
      by_cases hc : a ≠ "" ∧ now - st.last_check_time < 5
      · simp [ht, hc]
      · simp [ht, hc]
  · simp [ht]

theorem update_usage_last (st : TrackerState) (now : ℚ)
    (app : Option AppId) (today : DateStr) (ht : st.is_tracking = true) :
    (update_usage st now app today).last_check_time = now := by
  unfold update_usage
  cases app with
  | none => simp [ht]
  | some a =>
    by_cases hc : a ≠ "" ∧ now - st.last_check_time < 5
    · simp [ht, hc]
    · simp [ht, hc]

/-! ### The claims -/

/-- C3: a tick whose observed app is none leaves both LifetimeUsage
(app_usage) and DailyUsage (daily_usage) unchanged, for every elapsed value,
whether or not tracking is on. -/
theorem no_app_tick_leaves_mappings_unchanged (st : TrackerState) (now : ℚ)
    (today : DateStr) :
    (update_usage st now none today).app_usage = st.app_usage ∧
    (update_usage st now none today).daily_usage = st.daily_usage := by
  unfold update_usage
  by_cases ht : st.is_tracking <;> simp [ht]

/-- C2: the 5-second guard is strict.  Any tick with elapsed at least 5
(in particular exactly 5) leaves both mappings unchanged, whatever app it
carries; and a tick carrying a (non-empty) app name with elapsed strictly
below 5 is attributed, bumping both mappings by exactly that elapsed value. -/
theorem activity_threshold_boundary :
    (∀ (st : TrackerState) (now : ℚ) (app : Option AppId) (today : DateStr),
        5 ≤ now - st.last_check_time →
        (update_usage st now app today).app_usage = st.app_usage ∧
        (update_usage st now app today).daily_usage = st.daily_usage) ∧
    (∀ (st : TrackerState) (now : ℚ) (a : AppId) (today : DateStr),
        st.is_tracking = true → a ≠ "" → now - st.last_check_time < 5 →
        (update_usage st now (some a) today).app_usage
          = bumpEntry a (now - st.last_check_time) st.app_usage ∧
        (update_usage st now (some a) today).daily_usage
          = bumpDaily today a (now - st.last_check_time) st.daily_usage) := by
  constructor
  · intro st now app today h
    unfold update_usage
    by_cases ht : st.is_tracking
    · cases app with
      | none => simp [ht]
      | some a => simp [ht, not_lt.mpr h]
    · simp [ht]
  · intro st now a today ht ha h
    unfold update_usage
    simp [ht, ha, h]

/-- Witness for C2: at elapsed exactly 5 the mappings are untouched, and at
elapsed 4.999 the tick is attributed to the carried app. -/
theorem activity_threshold_boundary_witness :
    ((update_usage
        { app_usage := [("A", 100)], daily_usage := [], is_tracking := true,
          last_check_time := 100 } 105 (some "chrome.exe") "2025-10-12").app_usage
      = [("A", 100)]) ∧
    ((update_usage
        { app_usage := [("A", 100)], daily_usage := [], is_tracking := true,
          last_check_time := 100 } (100 + 4999/1000) (some "chrome.exe")
        "2025-10-12").app_usage
      = bumpEntry "chrome.exe" (100 + 4999/1000 - 100) [("A", 100)]) := by
  constructor
  · exact (activity_threshold_boundary.1 _ 105 (some "chrome.exe") "2025-10-12"
      (by norm_num)).1
  · exact (activity_threshold_boundary.2 _ (100 + 4999/1000) "chrome.exe"
      "2025-10-12" rfl (by decide) (by norm_num)).1

/-- C4: one tick is one atomic step on the two mappings: either both are
unchanged, or the carried app received the same elapsed increment in
app_usage and in daily_usage at today's date. -/
theorem attribution_updates_both_mappings_atomically (st : TrackerState)
    (now : ℚ) (app : Option AppId) (today : DateStr) :
    ((update_usage st now app today).app_usage = st.app_usage ∧
     (update_usage st now app today).daily_usage = st.daily_usage) ∨
    (∃ a, app = some a ∧
      (update_usage st now app today).app_usage
        = bumpEntry a (now - st.last_check_time) st.app_usage ∧
      (update_usage st now app today).daily_usage
        = bumpDaily today a (now - st.last_check_time) st.daily_usage) := by
  unfold update_usage
  by_cases ht : st.is_tracking
  · cases app with
    | none => left; simp [ht]
    | some a =>
      by_cases hc : a ≠ "" ∧ now - st.last_check_time < 5
      · right; exact ⟨a, rfl, by simp [ht, hc], by simp [ht, hc]⟩
      · left; constructor <;> simp [ht, hc]
  · left; simp [ht]

/-- Effect of one tick on the lifetime usage of a fixed app a with a
non-empty name: it grows by the elapsed value exactly when the tick carries
a and passes the 5-second guard, and is untouched otherwise. -/
theorem usageOf_update_usage (st : TrackerState) (now : ℚ)
    (app : Option AppId) (today : DateStr) (a : AppId)
    (ht : st.is_tracking = true) (ha : a ≠ "") :
    usageOf (update_usage st now app today).app_usage a
      = usageOf st.app_usage a
        + (if app = some a ∧ now - st.last_check_time < 5 then
            now - st.last_check_time else 0) := by
  unfold update_usage
  cases app with
  | none => simp [ht]
  | some b =>
    by_cases hb : b = a
    · subst hb
      by_cases h5 : now - st.last_check_time < 5
      · simp [ht, ha, h5, usageOf_bumpEntry_self]
      · simp [ht, h5]
    · by_cases hc : b ≠ "" ∧ now - st.last_check_time < 5
      · simp [ht, hc.1, hc.2, hb,
          usageOf_bumpEntry_other b a (now - st.last_check_time) st.app_usage
            (fun h => hb h.symm)]
      · simp [ht, hc, hb]

/-- C1: over any finite run of the loop with tracking enabled, the final
lifetime usage of an app equals its initial value plus the sum of the
elapsed values of exactly the accepted ticks attributed to it: ticks
rejected by the 5-second guard or carrying no app contribute nothing, and
every accepted elapsed value is counted exactly once. -/
theorem lifetime_usage_equals_accepted_sum (st : TrackerState)
    (ticks : List Tick) (a : AppId)
    (ht : st.is_tracking = true) (ha : a ≠ "") :
    usageOf (run st ticks).app_usage a
      = usageOf st.app_usage a + acceptedSum st.last_check_time a ticks := by
  induction ticks generalizing st with
  | nil => simp [run, acceptedSum]
  | cons t rest ih =>
    have ht' : (update_usage st t.now t.app t.today).is_tracking = true := by
      rw [update_usage_is_tracking]; exact ht
    have hlast := update_usage_last st t.now t.app t.today ht
    calc usageOf (run st (t :: rest)).app_usage a
        = usageOf (update_usage st t.now t.app t.today).app_usage a
            + acceptedSum
                (update_usage st t.now t.app t.today).last_check_time a rest := by
          rw [show run st (t :: rest)
              = run (update_usage st t.now t.app t.today) rest from rfl]
          exact ih _ ht'
      _ = usageOf st.app_usage a + acceptedSum st.last_check_time a (t :: rest) := by
          rw [hlast, usageOf_update_usage st t.now t.app t.today a ht ha]
          simp [acceptedSum]
          ring

/-- Witness for C1: a concrete three-tick run (one accepted tick for the
app, one rejected by the guard, one carrying no app) sums as claimed. -/
theorem lifetime_usage_equals_accepted_sum_witness :
    usageOf
      (run
        { app_usage := [], daily_usage := [], is_tracking := true,
          last_check_time := 0 }
        [⟨3, some "chrome.exe", "d"⟩, ⟨20, some "chrome.exe", "d"⟩,
          ⟨21, none, "d"⟩]).app_usage "chrome.exe"
      = usageOf ([] : Dict ℚ) "chrome.exe"
        + acceptedSum 0 "chrome.exe"
            [⟨3, some "chrome.exe", "d"⟩, ⟨20, some "chrome.exe", "d"⟩,
              ⟨21, none, "d"⟩] :=
  lifetime_usage_equals_accepted_sum _ _ "chrome.exe" rfl (by decide)

/-- A tracking state with accumulated usage, used to exhibit the effect of a
clock that moves backwards. -/
def stBack : TrackerState :=
  { app_usage := [("chrome.exe", 10)], daily_usage := [],
    is_tracking := true, last_check_time := 100 }

/-- C5 as stated is false: a tick whose timestamp lies before
last_check_time yields a negative elapsed value, which still passes the
strict guard (negative is below 5), so the lifetime usage of the focused
app decreases. -/
theorem lifetime_usage_can_decrease_on_backwards_clock :
    usageOf (update_usage stBack 90 (some "chrome.exe") "2025-01-01").app_usage
        "chrome.exe"
      < usageOf stBack.app_usage "chrome.exe" := by
  norm_num [update_usage, stBack, bumpEntry, usageOf, dictFind, List.find?,
    String.reduceEq]

/-- Timestamps of a tick sequence never move backwards relative to the
running clock reference. -/
def nondecreasingFrom (last : ℚ) : List Tick → Prop
  | [] => True
  | t :: rest => last ≤ t.now ∧ nondecreasingFrom t.now rest

theorem nondecreasingFrom_of_le (l1 l2 : ℚ) (ticks : List Tick)
    (h : l1 ≤ l2) (hn : nondecreasingFrom l2 ticks) :
    nondecreasingFrom l1 ticks := by
  cases ticks with
  | nil => trivial
  | cons t rest => exact ⟨le_trans h hn.1, hn.2⟩

/-- One tick with a timestamp not before the clock reference never lowers
any app's lifetime usage. -/
theorem usageOf_update_usage_mono (st : TrackerState) (now : ℚ)
    (app : Option AppId) (today : DateStr) (a : AppId)
    (h : st.last_check_time ≤ now) :
    usageOf st.app_usage a
      ≤ usageOf (update_usage st now app today).app_usage a := by
  unfold update_usage
  by_cases ht : st.is_tracking
  · cases app with
    | none => simp [ht]
    | some b =>
      by_cases hc : b ≠ "" ∧ now - st.last_check_time < 5
      · simp only [ht, if_true]
        rw [if_pos hc]
        simpa using usageOf_bumpEntry_le b a (now - st.last_check_time)
          st.app_usage (by linarith)
      · simp [ht, hc]
  · simp [ht]

/-- C5 amended: while tracking, the lifetime usage of every app is
monotonically non-decreasing along any run whose tick timestamps do not go
backwards; the original claim extended this to backwards timestamps, where
the code instead subtracts (see the counterexample). -/
theorem lifetime_usage_monotone_on_forward_clock (st : TrackerState)
    (ticks : List Tick) (a : AppId)
    (h : nondecreasingFrom st.last_check_time ticks) :
    usageOf st.app_usage a ≤ usageOf (run st ticks).app_usage a := by
  induction ticks generalizing st with
  | nil => simp [run]
  | cons t rest ih =>
    have step := usageOf_update_usage_mono st t.now t.app t.today a h.1
    have hrest : nondecreasingFrom
        (update_usage st t.now t.app t.today).last_check_time rest := by
      by_cases ht : st.is_tracking
      · rw [update_usage_last st t.now t.app t.today ht]; exact h.2
      · have : update_usage st t.now t.app t.today = st := by
          unfold update_usage; simp [ht]
        rw [this]
        exact nondecreasingFrom_of_le _ _ _ h.1 h.2
    exact le_trans step (ih _ hrest)

/-- Witness for the amended C5: a concrete forward-clock run (an accepted
tick and a rejected one) does not decrease the tracked app's usage. -/
theorem lifetime_usage_monotone_on_forward_clock_witness :
    nondecreasingFrom stBack.last_check_time
      [⟨102, some "chrome.exe", "d"⟩, ⟨120, some "chrome.exe", "d"⟩] ∧
    usageOf stBack.app_usage "chrome.exe"
      ≤ usageOf
          (run stBack
            [⟨102, some "chrome.exe", "d"⟩, ⟨120, some "chrome.exe", "d"⟩]).app_usage
          "chrome.exe" :=
  ⟨by norm_num [nondecreasingFrom, stBack],
   lifetime_usage_monotone_on_forward_clock stBack _ "chrome.exe"
     (by norm_num [nondecreasingFrom, stBack])⟩

/-- A state with usage data and no recorded dates, used to exhibit the
defaultdict read side effect of get_daily_total. -/
def stQuery : TrackerState :=
  { app_usage := [("chrome.exe", 10)], daily_usage := [],
    is_tracking := false, last_check_time := 0 }

/-- C6 as stated is false: get_daily_total on a date with no entry is not a
pure read, because daily_usage is a defaultdict and indexing it inserts an
empty inner dict for that date; the resulting state differs from the
original. -/
theorem daily_total_mutates_on_missing_date :
    (get_daily_total stQuery (some "2024-01-01") "2024-01-02").2 ≠ stQuery := by
  decide

/-- C6 amended: get_top_apps performs no write at all (its embedding is a
pure function of the state), and get_daily_total leaves app_usage and the
tracker flags unchanged, leaves daily_usage unchanged whenever the queried
date is present, and on a missing date only appends an empty entry for that
date, changing no existing entry and no daily total. -/
theorem query_operations_effect (st : TrackerState) (date : Option DateStr)
    (todayStr : DateStr) :
    (get_daily_total st date todayStr).2.app_usage = st.app_usage ∧
    (get_daily_total st date todayStr).2.is_tracking = st.is_tracking ∧
    (get_daily_total st date todayStr).2.last_check_time
      = st.last_check_time ∧
    ((get_daily_total st date todayStr).2.daily_usage = st.daily_usage ∨
      (List.find? (fun e => e.1 = date.getD todayStr) st.daily_usage = none ∧
        (get_daily_total st date todayStr).2.daily_usage
          = st.daily_usage ++ [(date.getD todayStr, [])])) ∧
    (∀ d t2, (get_daily_total (get_daily_total st date todayStr).2 (some d) t2).1
        = (get_daily_total st (some d) t2).1) ∧
    (∀ limit, get_top_apps (get_daily_total st date todayStr).2 limit
        = get_top_apps st limit) := by
  unfold get_daily_total
  cases hf : List.find? (fun e => e.1 = date.getD todayStr) st.daily_usage with
  | some e => simp [hf]
  | none =>
    refine ⟨by simp [hf], by simp [hf], by simp [hf],
      Or.inr ⟨by simp [hf], by simp [hf]⟩, ?_,
      fun limit => by simp [hf, get_top_apps]⟩
    intro d t2
    simp only [hf, Option.getD_some]
    cases hd : List.find? (fun e => e.1 = d) st.daily_usage with
    | some e =>
      rw [List.find?_append, hd]
      simp
    | none =>
      rw [List.find?_append, hd]
      simp only [Option.none_orElse]
      cases hcons : List.find? (fun e => e.1 = d)
          [(date.getD todayStr, ([] : Dict ℚ))] with
      | some e =>
        have hmem := List.mem_of_find?_eq_some hcons
        simp at hmem
        subst hmem
        simp [sumValues]
      | none => simp

/-! ### Lemmas about the stable descending sort behind get_top_apps -/

theorem perm_insertDesc (x : String × ℚ) (l : List (String × ℚ)) :
    List.Perm (insertDesc x l) (x :: l) := by
  induction l with
  | nil => simp [insertDesc]
  | cons y ys ih =>
    by_cases hxy : y.2 ≤ x.2
    · simp [insertDesc, hxy]
    · simp only [insertDesc, if_neg hxy]
      exact List.Perm.trans (List.Perm.cons y ih) (List.Perm.swap x y ys)

theorem sortDesc_perm (l : List (String × ℚ)) :
    List.Perm (sortDesc l) l := by
  induction l with
  | nil => simp [sortDesc]
  | cons x xs ih =>
    exact (perm_insertDesc x (sortDesc xs)).trans (List.Perm.cons x ih)

theorem pairwise_insertDesc (x : String × ℚ) (l : List (String × ℚ))
    (h : l.Pairwise (fun p q => q.2 ≤ p.2)) :
    (insertDesc x l).Pairwise (fun p q => q.2 ≤ p.2) := by
  induction l with
  | nil => simp [insertDesc]
  | cons y ys ih =>
    rw [List.pairwise_cons] at h
    by_cases hxy : y.2 ≤ x.2
    · simp only [insertDesc, if_pos hxy]
      refine List.Pairwise.cons ?_ (List.Pairwise.cons h.1 h.2)
      intro z hz
      rcases List.mem_cons.1 hz with rfl | hz2
      · exact hxy
      · exact le_trans (h.1 z hz2) hxy
    · simp only [insertDesc, if_neg hxy]
      refine List.Pairwise.cons ?_ (ih h.2)
      intro z hz
      rcases List.mem_cons.1 ((perm_insertDesc x ys).mem_iff.1 hz) with rfl | hz2
      · exact le_of_lt (lt_of_not_le hxy)
      · exact h.1 z hz2

theorem sortDesc_pairwise (l : List (String × ℚ)) :
    (sortDesc l).Pairwise (fun p q => q.2 ≤ p.2) := by
  induction l with
  | nil => simp [sortDesc]
  | cons x xs ih => exact pairwise_insertDesc x (sortDesc xs) ih

theorem filter_insertDesc (x : String × ℚ) (l : List (String × ℚ)) (v : ℚ) :
    (insertDesc x l).filter (fun e => decide (e.2 = v))
      = if x.2 = v then x :: l.filter (fun e => decide (e.2 = v))
        else l.filter (fun e => decide (e.2 = v)) := by
  induction l with
  | nil => by_cases hx : x.2 = v <;> simp [insertDesc, hx]
  | cons y ys ih =>
    by_cases hxy : y.2 ≤ x.2
    · simp only [insertDesc, if_pos hxy]
      by_cases hx : x.2 = v <;> by_cases hy : y.2 = v <;>
        simp [List.filter_cons, hx, hy]
    · simp only [insertDesc, if_neg hxy]
      by_cases hy : y.2 = v
      · have hx : ¬ x.2 = v := fun hx => hxy (by rw [hy, hx])
        simp [List.filter_cons, hy, hx, ih]
      · by_cases hx : x.2 = v
        · simp [List.filter_cons, hy, hx, ih]
        · simp [List.filter_cons, hy, hx, ih]

theorem sortDesc_filter (l : List (String × ℚ)) (v : ℚ) :
    (sortDesc l).filter (fun e => decide (e.2 = v))
      = l.filter (fun e => decide (e.2 = v)) := by
  induction l with
  | nil => rfl
  | cons x xs ih =>
    rw [show sortDesc (x :: xs) = insertDesc x (sortDesc xs) from rfl,
      filter_insertDesc]
    by_cases hx : x.2 = v
    · simp [hx, List.filter_cons, ih]
    · simp [hx, List.filter_cons, ih]

/-- C7: get_top_apps returns the app_usage pairs sorted by seconds
descending, truncated to at most limit entries, obtained by a stable sort:
the output is a prefix of a permutation of all entries that is pairwise
descending, and for every seconds value the entries carrying that value
keep exactly their first-seen (insertion) order.  On the documented example
with B observed before D, top 3 is [(B,300),(D,300),(A,100)]. -/
theorem top_apps_sorted_truncated_stable :
    (∀ (st : TrackerState) (limit : ℕ),
        (get_top_apps st limit).Pairwise (fun p q => q.2 ≤ p.2)) ∧
    (∀ (st : TrackerState) (limit : ℕ),
        (get_top_apps st limit).length ≤ limit) ∧
    (∀ (st : TrackerState) (limit : ℕ),
        get_top_apps st limit = (sortDesc st.app_usage).take limit) ∧
    (∀ st : TrackerState, List.Perm (sortDesc st.app_usage) st.app_usage) ∧
    (∀ (st : TrackerState) (v : ℚ),
        (sortDesc st.app_usage).filter (fun e => decide (e.2 = v))
          = st.app_usage.filter (fun e => decide (e.2 = v))) ∧
    get_top_apps
        { app_usage := [("A", 100), ("B", 300), ("C", 50), ("D", 300)],
          daily_usage := [], is_tracking := false, last_check_time := 0 } 3
      = [("B", 300), ("D", 300), ("A", 100)] := by
  refine ⟨?_, ?_, fun st limit => rfl, fun st => sortDesc_perm _,
    fun st v => sortDesc_filter _ _, by decide⟩
  · intro st limit
    exact List.Pairwise.sublist (List.take_sublist limit _)
      (sortDesc_pairwise st.app_usage)
  · intro st limit
    simp only [get_top_apps, List.length_take]
    exact min_le_left limit (sortDesc st.app_usage).length

/-! ### Lemmas about persistence -/

theorem asFlatDict_encode (l : Dict ℚ) :
    asFlatDict (.obj (l.map (fun e => (e.1, JVal.num e.2)))) = some l := by
  simp only [asFlatDict, List.map_map, Option.some.injEq]
  induction l with
  | nil => rfl
  | cons e rest ih => simpa [entrySeconds, Function.comp] using ih

theorem setEntry_append {α : Type} (k : String) (v : α) (l : Dict α)
    (h : ∀ e ∈ l, e.1 ≠ k) :
    setEntry k v l = l ++ [(k, v)] := by
  induction l with
  | nil => rfl
  | cons e rest ih =>
    rw [show setEntry k v (e :: rest)
        = if e.1 = k then (k, v) :: rest else e :: setEntry k v rest from rfl]
    rw [if_neg (h e (List.mem_cons_self e rest))]
    rw [ih (fun e' he' => h e' (List.mem_cons_of_mem e he'))]
    rfl

theorem loadDaily_encode (l : Dict (Dict ℚ)) (acc : Dict (Dict ℚ))
    (hnd : (l.map Prod.fst).Nodup)
    (hdisj : ∀ e ∈ acc, e.1 ∉ l.map Prod.fst) :
    loadDaily acc
        (l.map (fun e => (e.1, JVal.obj (e.2.map (fun x => (x.1, JVal.num x.2))))))
      = acc ++ l := by
  induction l generalizing acc with
  | nil => simp [loadDaily]
  | cons e rest ih =>
    simp only [List.map_cons, loadDaily, asFlatDict_encode]
    rw [setEntry_append e.1 e.2 acc
      (fun e' he' => by
        have hmem := hdisj e' he'
        simp only [List.map_cons, List.mem_cons] at hmem
        exact fun hh => hmem (Or.inl hh))]
    simp only [List.map_cons, List.nodup_cons] at hnd
    rw [ih (acc ++ [(e.1, e.2)]) hnd.2 (fun e' he' => by
      rcases List.mem_append.1 he' with hacc | hsingle
      · have hmem := hdisj e' hacc
        simp only [List.map_cons, List.mem_cons] at hmem
        exact fun hh => hmem (Or.inr hh)
      · simp only [List.mem_singleton] at hsingle
        subst hsingle
        exact hnd.1)]
    simp

theorem jLookup_pair_first (a b : JVal) :
    jLookup [("app_usage", a), ("daily_usage", b)] "app_usage" = some a := by
  simp [jLookup, List.find?_cons, String.reduceEq]

theorem jLookup_pair_second (a b : JVal) :
    jLookup [("app_usage", a), ("daily_usage", b)] "daily_usage" = some b := by
  simp [jLookup, List.find?_cons, String.reduceEq]

/-- C8: saving a tracker's mappings and loading the saved document into a
fresh tracker reproduces both mappings exactly, provided the saved
daily_usage has one entry per date (which is an invariant of dicts). -/
theorem save_load_roundtrip (st : TrackerState) (t : ℚ)
    (hnd : (st.daily_usage.map Prod.fst).Nodup) :
    (load_data (initState t) (.parsed (save_data st))).app_usage
      = st.app_usage ∧
    (load_data (initState t) (.parsed (save_data st))).daily_usage
      = st.daily_usage := by
  unfold save_data load_data
  simp only [jLookup_pair_first, jLookup_pair_second, Option.getD_some,
    asFlatDict_encode]
  rw [loadDaily_encode st.daily_usage [] hnd (by simp)]
  simp

/-- Witness for C8: a concrete populated state round-trips through the
store document. -/
theorem save_load_roundtrip_witness :
    (([("2024-01-01", [("chrome.exe", (10:ℚ))]),
        ("2024-01-02", [("code.exe", (20:ℚ))])].map Prod.fst).Nodup) ∧
    ((load_data (initState 7)
        (.parsed (save_data
          { app_usage := [("chrome.exe", 10), ("code.exe", 20)],
            daily_usage := [("2024-01-01", [("chrome.exe", 10)]),
              ("2024-01-02", [("code.exe", 20)])],
            is_tracking := false, last_check_time := 3 }))).app_usage
      = [("chrome.exe", 10), ("code.exe", 20)] ∧
    (load_data (initState 7)
        (.parsed (save_data
          { app_usage := [("chrome.exe", 10), ("code.exe", 20)],
            daily_usage := [("2024-01-01", [("chrome.exe", 10)]),
              ("2024-01-02", [("code.exe", 20)])],
            is_tracking := false, last_check_time := 3 }))).daily_usage
      = [("2024-01-01", [("chrome.exe", 10)]),
          ("2024-01-02", [("code.exe", 20)])]) :=
  ⟨by decide,
   save_load_roundtrip
     { app_usage := [("chrome.exe", 10), ("code.exe", 20)],
       daily_usage := [("2024-01-01", [("chrome.exe", 10)]),
         ("2024-01-02", [("code.exe", 20)])],
       is_tracking := false, last_check_time := 3 } 7 (by decide)⟩

/-- A tracker whose in-memory mappings are already populated, about to load
a malformed store. -/
def stLoaded : TrackerState :=
  { app_usage := [("old.exe", 50)],
    daily_usage := [("2024-01-01", [("old.exe", 50)])],
    is_tracking := false, last_check_time := 0 }

/-- A store that parses as JSON but is structurally malformed: app_usage is
a usable numeric object, while daily_usage is a number, on which .items()
raises after app_usage was already replaced and daily_usage reset. -/
def corruptStore : JVal :=
  .obj [("app_usage", .obj [("new.exe", .num 100)]), ("daily_usage", .num 42)]

/-- C9 as stated is false: load_data reports nothing to the caller (the
bare except swallows every error), and on this present, parseable but
structurally malformed store it destroys the previously populated
daily_usage and replaces app_usage, instead of leaving the state
uncorrupted. -/
theorem load_malformed_corrupts_populated_state :
    (load_data stLoaded (.parsed corruptStore)).daily_usage = [] ∧
    (load_data stLoaded (.parsed corruptStore)).app_usage
      = [("new.exe", 100)] ∧
    stLoaded.daily_usage = [("2024-01-01", [("old.exe", 50)])] := by
  exact ⟨rfl, rfl, rfl⟩

/-- C9 amended: load_data never reports an error (its embedding is total
into states).  A store that fails JSON parsing, or parses to a non-object
(a number), or whose app_usage field is a number and hence not dict-like,
leaves the state exactly unchanged, because the raise precedes the first
assignment; but a store that parses to an object whose app_usage field is
itself an object builds the new dict successfully, whatever its values, so
a non-object daily_usage field then leaves app_usage overwritten and
daily_usage cleared, keeping the remaining tracker fields. -/
theorem load_malformed_effect :
    (∀ st : TrackerState, load_data st .garbled = st) ∧
    (∀ (st : TrackerState) (q : ℚ), load_data st (.parsed (.num q)) = st) ∧
    (∀ (st : TrackerState) (data : List (String × JVal)),
        asFlatDict ((jLookup data "app_usage").getD (.obj [])) = none →
        load_data st (.parsed (.obj data)) = st) ∧
    (∀ (st : TrackerState) (data : List (String × JVal)) (au : Dict ℚ) (q : ℚ),
        asFlatDict ((jLookup data "app_usage").getD (.obj [])) = some au →
        (jLookup data "daily_usage").getD (.obj []) = .num q →
        load_data st (.parsed (.obj data))
          = { st with app_usage := au, daily_usage := [] }) := by
  refine ⟨fun st => rfl, fun st q => rfl, ?_, ?_⟩
  · intro st data h
    simp only [load_data, h]
  · intro st data au q h1 h2
    simp only [load_data, h1, h2]

/-- Witness for the amended C9: the garbled case at a concrete state, and
the partial-overwrite case at the concrete corrupt store above. -/
theorem load_malformed_effect_witness :
    load_data stLoaded .garbled = stLoaded ∧
    (asFlatDict ((jLookup
        [("app_usage", JVal.obj [("new.exe", JVal.num 100)]),
          ("daily_usage", JVal.num 42)] "app_usage").getD (.obj []))
      = some [("new.exe", 100)]) ∧
    load_data stLoaded
        (.parsed (.obj [("app_usage", JVal.obj [("new.exe", JVal.num 100)]),
          ("daily_usage", JVal.num 42)]))
      = { stLoaded with app_usage := [("new.exe", 100)], daily_usage := [] } :=
  ⟨load_malformed_effect.1 stLoaded, rfl,
   load_malformed_effect.2.2.2 stLoaded
     [("app_usage", JVal.obj [("new.exe", JVal.num 100)]),
       ("daily_usage", JVal.num 42)]
     [("new.exe", 100)] 42 rfl rfl⟩

/-- C10: a successful load of a present, well-formed store replaces both
mappings wholesale with store-derived contents: the loaded mappings are
functions of the store document alone, so every previously accumulated
entry not present in the store is discarded, never merged; the other
tracker fields are kept. -/
theorem load_replaces_mappings_wholesale (st : TrackerState)
    (data : List (String × JVal)) (au : Dict ℚ)
    (dentries : List (String × JVal))
    (h1 : asFlatDict ((jLookup data "app_usage").getD (.obj [])) = some au)
    (h2 : (jLookup data "daily_usage").getD (.obj []) = .obj dentries) :
    (load_data st (.parsed (.obj data))).app_usage = au ∧
    (load_data st (.parsed (.obj data))).daily_usage
      = loadDaily [] dentries ∧
    (load_data st (.parsed (.obj data))).is_tracking = st.is_tracking ∧
    (load_data st (.parsed (.obj data))).last_check_time
      = st.last_check_time := by
  simp only [load_data, h1, h2]
  simp

/-- Witness for C10: loading a well-formed one-app store into the populated
tracker discards its old app and dates entirely. -/
theorem load_replaces_mappings_wholesale_witness :
    (asFlatDict ((jLookup
        [("app_usage", JVal.obj [("new.exe", JVal.num 100)]),
          ("daily_usage", JVal.obj [("2025-05-05", JVal.obj [("new.exe", JVal.num 100)])])]
        "app_usage").getD (.obj [])) = some [("new.exe", 100)]) ∧
    (load_data stLoaded
        (.parsed (.obj [("app_usage", JVal.obj [("new.exe", JVal.num 100)]),
          ("daily_usage",
            JVal.obj [("2025-05-05", JVal.obj [("new.exe", JVal.num 100)])])]))).app_usage
      = [("new.exe", 100)] ∧
    (load_data stLoaded
        (.parsed (.obj [("app_usage", JVal.obj [("new.exe", JVal.num 100)]),
          ("daily_usage",
            JVal.obj [("2025-05-05", JVal.obj [("new.exe", JVal.num 100)])])]))).daily_usage
      = loadDaily []
          [("2025-05-05", JVal.obj [("new.exe", JVal.num 100)])] :=
  ⟨rfl,
   (load_replaces_mappings_wholesale stLoaded
     [("app_usage", JVal.obj [("new.exe", JVal.num 100)]),
       ("daily_usage", JVal.obj [("2025-05-05", JVal.obj [("new.exe", JVal.num 100)])])]
     [("new.exe", 100)]
     [("2025-05-05", JVal.obj [("new.exe", JVal.num 100)])] rfl rfl).1,
   (load_replaces_mappings_wholesale stLoaded
     [("app_usage", JVal.obj [("new.exe", JVal.num 100)]),
       ("daily_usage", JVal.obj [("2025-05-05", JVal.obj [("new.exe", JVal.num 100)])])]
     [("new.exe", 100)]
     [("2025-05-05", JVal.obj [("new.exe", JVal.num 100)])] rfl rfl).2.1⟩

end ScreenTime
